import Mathlib

/-!
Verification of the mesh rule execution and merge engine
(`annet/mesh/executor.py`): a shallow embedding of `MeshExecutor`
(`_execute_globals`, `_execute_direct`, `_execute_indirect`,
`_process_neighbor`, `execute_for`) and of the `Pair` model, together with
theorems about merge identity, ordering, interface reconciliation and its
error behaviour.

Modelling conventions:
* A `Device` is identified by its fqdn (a `String`); the executor only ever
  reads `device.fqdn`, `device.neighbours` and calls the provisioning
  methods, so topology data is supplied by an `Env` record indexed by fqdn.
* Provisioning side effects (`make_lag`, `add_subif`, `add_svi`) are
  recorded as an explicit `Effect` trace; the value returned by `make_lag`
  is supplied by the environment (`makeLagRet`).
* Python exceptions become `Except MeshErr`: the two
  `ValueError("Cannot use ...")` raises, the
  `ValueError("Multiple connections ...")` raise, a `KeyError` from
  `neighbors[...]`, an `IndexError` from `[0]` on an empty list, and a
  `MergeConflict` from the merge model.
* An error result of a function carries no effect trace; in the source every
  `raise` in `_process_neighbor` happens before any provisioning call, which
  the embedding mirrors by checking before emitting effects.
-/

namespace Mesh

/-- A device is identified by its fully qualified domain name. -/
abbrev Fqdn := String

/-- Opaque matched-pattern data, passed through to handlers unchanged. -/
abbrev Matched := String

/-- Errors of the engine. `lagSviConflict` and `sviSubifConflict` are the two
`ValueError` raises for conflicting interface modes, `ambiguousMultiLink` the
multiple-connections raise; `mergeConflict` is the merge-model failure;
`keyError` models `neighbors[...]` on a missing key and `indexError` models
`[0]` applied to an empty list. -/
inductive MeshErr where
  | lagSviConflict
  | sviSubifConflict
  | ambiguousMultiLink
  | mergeConflict
  | keyError
  | indexError
  deriving Repr, DecidableEq

/-- Both conflicting-interface-mode raises (`LAG and SVI`, `Subif and SVI`)
are the spec's `ConflictingInterfaceMode` error. -/
def MeshErr.isConflictingInterfaceMode : MeshErr → Bool
  | .lagSviConflict => true
  | .sviSubifConflict => true
  | _ => false

/-- The three validation errors named by the spec for `_process_neighbor`:
the two conflicting-mode errors and `AmbiguousMultiLink`. -/
def MeshErr.isSpecifiedValidationError : MeshErr → Bool
  | .lagSviConflict => true
  | .sviSubifConflict => true
  | .ambiguousMultiLink => true
  | _ => false

/-- A provisioning side effect applied to the device, in call order. -/
inductive Effect where
  | makeLag (lagg : Int) (ports : List String) (lagMinLinks : Option Int)
  | addSubif (ifaceName : String) (subifId : Int)
  | addSvi (sviId : Int)
  deriving Repr, DecidableEq

/-- Modelled from the spec: the peer-options fragment `PeerDTO`
(`peer_models.py` is not part of the sources). It carries the optional
fields read by `_process_neighbor` — aggregated-link handle `lag`,
minimum-links `lag_links_min`, switched-virtual-interface id `svi` and
sub-interface id `subif` — all absent unless a handler set them. -/
structure PeerDTO where
  lag : Option Int := none
  lag_links_min : Option Int := none
  svi : Option Int := none
  subif : Option Int := none
  deriving Repr, DecidableEq

/-- Modelled from the spec: the `Merge` strategy on a scalar optional field —
the combination of all non-absent values; two different scalar values
asserted for the same field are a true conflict and fail with
`MergeConflict`. -/
def mergeOptField (a b : Option Int) : Except MeshErr (Option Int) :=
  match a, b with
  | none, b => .ok b
  | some x, none => .ok (some x)
  | some x, some y => if x = y then .ok (some x) else .error .mergeConflict

/-- Modelled from the spec: merging two `PeerDTO` fragments field by field,
each field under the accumulating `Merge` strategy; the first failing field
(in declaration order) reports the conflict. -/
def mergePeerDTO (a b : PeerDTO) : Except MeshErr PeerDTO :=
  match mergeOptField a.lag b.lag with
  | .error e => .error e
  | .ok lag =>
    match mergeOptField a.lag_links_min b.lag_links_min with
    | .error e => .error e
    | .ok lagMin =>
      match mergeOptField a.svi b.svi with
      | .error e => .error e
      | .ok svi =>
        match mergeOptField a.subif b.subif with
        | .error e => .error e
        | .ok subif =>
          .ok { lag := lag, lag_links_min := lagMin, svi := svi, subif := subif }

/-- Modelled from the spec: the global-options fragment `GlobalOptionsDTO`
(`device_models.py` is not part of the sources), with one `UseLast` scalar
field and one accumulating `Merge` list field as representatives of the two
strategies. -/
structure GlobalOptionsDTO where
  asn : Option Int := none
  groups : List String := []
  deriving Repr, DecidableEq

/-- Modelled from the spec: merging two `GlobalOptionsDTO` fragments —
`asn` is `UseLast` (the last instance that defines the field wins), `groups`
accumulates by list concatenation. -/
def mergeGlobalDTO (a b : GlobalOptionsDTO) : GlobalOptionsDTO :=
  { asn := match b.asn with | some x => some x | none => a.asn,
    groups := a.groups ++ b.groups }

/-- The `Pair` model of the executor: local and connected fragments under the
`Merge` strategy, the connected device under `UseLast` (`local` is a Lean
keyword, hence `local_`). -/
structure Pair where
  local_ : PeerDTO
  connected : PeerDTO
  device : Fqdn
  deriving Repr, DecidableEq

/-- `merge` on two `Pair`s: `local` and `connected` merge accumulatively via
the `PeerDTO` merge, `device` uses last-write. -/
def mergePair (a b : Pair) : Except MeshErr Pair :=
  match mergePeerDTO a.local_ b.local_ with
  | .error e => .error e
  | .ok l =>
    match mergePeerDTO a.connected b.connected with
    | .error e => .error e
    | .ok c => .ok { local_ := l, connected := c, device := b.device }

/-- Modelled from the spec: the per-rule-evaluation mutable `Session` scratch
object; its handler-populated fields are merged into both fragments. -/
structure Session where
  dto : PeerDTO := {}

/-- Modelled from the spec: the `DirectPeer` context — matched data, the
device on that side, the local interface names of the physical connection,
and the handler-populated fragment fields. -/
structure DirectPeerCtx where
  matched : Matched
  device : Fqdn
  ports : List String
  dto : PeerDTO := {}

/-- Modelled from the spec: the `IndirectPeer` context — like `DirectPeer`
but with no interface list, since indirect peers need not be connected. -/
structure IndirectPeerCtx where
  matched : Matched
  device : Fqdn
  dto : PeerDTO := {}

/-- Modelled from the spec: the `MeshGlobalOptions` match context bound to
`(rule.matched, device)`, with the handler-populated global fields. -/
structure MeshGlobalOptions where
  matched : Matched
  device : Fqdn
  dto : GlobalOptionsDTO := {}

/-- Modelled from the spec: a global rule — matched data plus a handler that
populates the match context (mutation modelled as returning the updated
context). -/
structure GlobalRule where
  matched : Matched
  handler : MeshGlobalOptions → MeshGlobalOptions

/-- Modelled from the spec: a direct rule — the two name patterns, matched
data for each side, the orientation flag `direct_order`, and a handler taking
the two contexts in left/right order plus the session (mutation modelled as
returning the updated triple). -/
structure DirectRule where
  name_left : Fqdn
  name_right : Fqdn
  matched_left : Matched
  matched_right : Matched
  direct_order : Bool
  handler : DirectPeerCtx → DirectPeerCtx → Session →
    DirectPeerCtx × DirectPeerCtx × Session

/-- Modelled from the spec: an indirect rule, same shape as a direct rule but
over `IndirectPeer` contexts. -/
structure IndirectRule where
  name_left : Fqdn
  name_right : Fqdn
  matched_left : Matched
  matched_right : Matched
  direct_order : Bool
  handler : IndirectPeerCtx → IndirectPeerCtx → Session →
    IndirectPeerCtx × IndirectPeerCtx × Session

/-- Modelled from the spec: the rule registry capability, returning matched
rules in priority order. -/
structure MeshRulesRegistry where
  lookup_global : Fqdn → List GlobalRule
  lookup_direct : Fqdn → List Fqdn → List DirectRule
  lookup_indirect : Fqdn → List Fqdn → List IndirectRule

/-- The external storage/topology capabilities, indexed by fqdn:
`neighbours` and the provisioning return value belong to `Device`,
the rest to `Storage`. `search_connections` returns the ordered
`(local interface name, remote interface name)` pairs; `makeLagRet` is the
aggregated-link identifier returned by `make_lag` for given arguments. -/
structure Env where
  neighbours : Fqdn → List Fqdn
  search_connections : Fqdn → Fqdn → List (String × String)
  make_devices : Fqdn → List Fqdn
  resolve_all_fdnds : List Fqdn
  makeLagRet : Int → List String → Option Int → String

/-- The external conversion layer is out of scope; `Peer` is modelled as an
opaque wrapper of the merged `Pair`. -/
structure Peer where
  ofPair : Pair
  deriving Repr, DecidableEq

/-- `to_bgp_peer(pair.local, pair.connected, pair.device)`, modelled as the
injection into the opaque `Peer`. -/
def to_bgp_peer (p : Pair) : Peer := ⟨p⟩

/-- The external conversion of merged global options, modelled as an opaque
wrapper. -/
structure GlobalOptions where
  ofDTO : GlobalOptionsDTO
  deriving Repr, DecidableEq

/-- `to_bgp_global_options`, modelled as the injection into the opaque
`GlobalOptions`. -/
def to_bgp_global_options (g : GlobalOptionsDTO) : GlobalOptions := ⟨g⟩

/-- The result of `execute_for`. -/
structure MeshExecutionResult where
  global_options : GlobalOptions
  peers : List Peer
  deriving Repr, DecidableEq

/-! ### Ordered fqdn-keyed accumulation (Python `dict` semantics) -/

/-- Lookup in an insertion-ordered association list (Python `dict` access). -/
def lookupAssoc (m : List (Fqdn × Pair)) (k : Fqdn) : Option Pair :=
  match m with
  | [] => none
  | e :: rest => if e.1 = k then some e.2 else lookupAssoc rest k

/-- Overwrite the value at an existing key, keeping its position (Python
`dict` assignment to a present key). -/
def setAssoc (m : List (Fqdn × Pair)) (k : Fqdn) (v : Pair) :
    List (Fqdn × Pair) :=
  m.map (fun e => if e.1 = k then (k, v) else e)

/-- `neighbor_peers[fqdn] = pair` preceded by the merge-if-present step of
`_execute_direct`/`_execute_indirect`: a new key is appended, an existing
key first merges the new pair into the stored one. -/
def insertPair (m : List (Fqdn × Pair)) (k : Fqdn) (v : Pair) :
    Except MeshErr (List (Fqdn × Pair)) :=
  match lookupAssoc m k with
  | some old =>
    match mergePair old v with
    | .error e => .error e
    | .ok mv => .ok (setAssoc m k mv)
  | none => .ok (m ++ [(k, v)])

/-- First-occurrence deduplication with an accumulator of seen keys:
`{n.fqdn: n for n in device.neighbours}` keyed in insertion order. -/
def dedupFirstAux (seen : List Fqdn) : List Fqdn → List Fqdn
  | [] => []
  | x :: xs =>
    if seen.contains x then dedupFirstAux seen xs
    else x :: dedupFirstAux (x :: seen) xs

/-- The keys of the neighbour dict, in first-seen order. -/
def dedupFirst (l : List Fqdn) : List Fqdn := dedupFirstAux [] l

/-! ### The executor -/

/-- `merge(PeerDTO(), context, session)`: left fold that materializes a
handler-populated context plus the session into a fragment record. -/
def mergeCtxSession (ctxDto : PeerDTO) (s : Session) : Except MeshErr PeerDTO :=
  match mergePeerDTO {} ctxDto with
  | .error e => .error e
  | .ok a => mergePeerDTO a s.dto

/-- The `for rule in ...` loop of `_execute_globals`: fold-merge each rule's
handler-populated context into the running fragment, in registry order. -/
def execute_globals_loop (device : Fqdn) :
    GlobalOptionsDTO → List GlobalRule → GlobalOptionsDTO
  | acc, [] => acc
  | acc, r :: rs =>
    execute_globals_loop device
      (mergeGlobalDTO acc (r.handler { matched := r.matched, device := device }).dto) rs

/-- `_execute_globals`: start from an empty `GlobalOptionsDTO`; for each rule
of `lookup_global`, bind a context to `(rule.matched, device)`, run the
handler, and fold-merge the context into the running fragment. -/
def execute_globals (reg : MeshRulesRegistry) (device : Fqdn) : GlobalOptionsDTO :=
  execute_globals_loop device {} (reg.lookup_global device)

/-- The two contexts in the order they are passed to a direct rule's handler:
orientation from `rule.direct_order` — the first (left) argument binds
`matched_left`, the second (right) binds `matched_right`; the device-side
context carries the local interface names of `search_connections(device,
neighbor)`, the neighbor-side context the remote ones. -/
def directHandlerArgs (env : Env) (device neighbor : Fqdn) (rule : DirectRule) :
    DirectPeerCtx × DirectPeerCtx :=
  let conns := env.search_connections device neighbor
  if rule.direct_order then
    ({ matched := rule.matched_left, device := device, ports := conns.map Prod.fst },
     { matched := rule.matched_right, device := neighbor, ports := conns.map Prod.snd })
  else
    ({ matched := rule.matched_left, device := neighbor, ports := conns.map Prod.snd },
     { matched := rule.matched_right, device := device, ports := conns.map Prod.fst })

/-- After a direct rule's handler ran: materialize the neighbor-side and
device-side contexts (plus session) into fragments and build the `Pair`
keyed by the neighbor fqdn. `out` is the handler's output triple in argument
order, so the device side is the first component exactly when
`direct_order`. -/
def directFinish (neighbor : Fqdn) (rule : DirectRule)
    (out : DirectPeerCtx × DirectPeerCtx × Session) :
    Except MeshErr (Fqdn × Pair) :=
  match mergeCtxSession (if rule.direct_order then out.2.1 else out.1).dto out.2.2 with
  | .error e => .error e
  | .ok neighborDto =>
    match mergeCtxSession (if rule.direct_order then out.1 else out.2.1).dto out.2.2 with
    | .error e => .error e
    | .ok deviceDto =>
      .ok (neighbor, { local_ := deviceDto, connected := neighborDto, device := neighbor })

/-- The fqdn the orientation assigns to the neighbor: `name_right` when
`direct_order`, `name_left` otherwise. -/
def directNeighborName (rule : DirectRule) : Fqdn :=
  if rule.direct_order then rule.name_right else rule.name_left

/-- One iteration of the `_execute_direct` rule loop up to the built pair:
resolve the neighbor from the dict keys (`KeyError` if absent), construct
the two contexts with their interface names, invoke the handler with the
left-bound context first, and materialize. -/
def buildDirectPair (env : Env) (device : Fqdn) (neighborKeys : List Fqdn)
    (rule : DirectRule) : Except MeshErr (Fqdn × Pair) :=
  if neighborKeys.contains (directNeighborName rule) then
    directFinish (directNeighborName rule) rule
      (rule.handler (directHandlerArgs env device (directNeighborName rule) rule).1
        (directHandlerArgs env device (directNeighborName rule) rule).2 {})
  else .error .keyError

/-- One iteration of the `_execute_direct` loop including the
merge-with-existing and dict update. -/
def directStep (env : Env) (device : Fqdn) (neighborKeys : List Fqdn)
    (m : List (Fqdn × Pair)) (rule : DirectRule) :
    Except MeshErr (List (Fqdn × Pair)) :=
  match buildDirectPair env device neighborKeys rule with
  | .error e => .error e
  | .ok (k, p) => insertPair m k p

/-- The rule loop of `_execute_direct`/`_execute_indirect`: thread the
fqdn-keyed accumulator through the per-rule step, aborting on the first
error, exactly as a raised exception would. -/
def foldStepsE {α : Type}
    (f : List (Fqdn × Pair) → α → Except MeshErr (List (Fqdn × Pair))) :
    List (Fqdn × Pair) → List α → Except MeshErr (List (Fqdn × Pair))
  | m, [] => .ok m
  | m, r :: rs =>
    match f m r with
    | .error e => .error e
    | .ok m2 => foldStepsE f m2 rs

/-- `_execute_direct`: fold the rules of `lookup_direct` over the
insertion-ordered neighbor dict and return the merged pairs, one per
distinct neighbor fqdn, in first-seen order. -/
def execute_direct (env : Env) (reg : MeshRulesRegistry) (device : Fqdn) :
    Except MeshErr (List Pair) :=
  match foldStepsE (directStep env device (dedupFirst (env.neighbours device))) []
      (reg.lookup_direct device (dedupFirst (env.neighbours device))) with
  | .error e => .error e
  | .ok m => .ok (m.map Prod.snd)

/-- After an indirect rule's handler ran: materialize the connected-side and
device-side contexts (plus session), connected side first as in the source,
into the `Pair` keyed by the connected device. -/
def indirectFinish (c : Fqdn) (ctxConnected ctxDevice : IndirectPeerCtx)
    (s : Session) : Except MeshErr (Fqdn × Pair) :=
  match mergeCtxSession ctxConnected.dto s with
  | .error e => .error e
  | .ok connectedDto =>
    match mergeCtxSession ctxDevice.dto s with
    | .error e => .error e
    | .ok deviceDto =>
      .ok (c, { local_ := deviceDto, connected := connectedDto, device := c })

/-- One iteration of the `_execute_indirect` rule loop up to the built pair:
resolve the connected device as the first result of `make_devices`
(`IndexError` on an empty result), build the two contexts, invoke the
handler with the left-bound context first, and materialize. -/
def buildIndirectPair (env : Env) (device : Fqdn) (rule : IndirectRule) :
    Except MeshErr (Fqdn × Pair) :=
  if rule.direct_order then
    match env.make_devices rule.name_right with
    | [] => .error .indexError
    | c :: _ =>
      indirectFinish c
        (rule.handler { matched := rule.matched_left, device := device }
          { matched := rule.matched_right, device := c } {}).2.1
        (rule.handler { matched := rule.matched_left, device := device }
          { matched := rule.matched_right, device := c } {}).1
        (rule.handler { matched := rule.matched_left, device := device }
          { matched := rule.matched_right, device := c } {}).2.2
  else
    match env.make_devices rule.name_left with
    | [] => .error .indexError
    | c :: _ =>
      indirectFinish c
        (rule.handler { matched := rule.matched_left, device := c }
          { matched := rule.matched_right, device := device } {}).1
        (rule.handler { matched := rule.matched_left, device := c }
          { matched := rule.matched_right, device := device } {}).2.1
        (rule.handler { matched := rule.matched_left, device := c }
          { matched := rule.matched_right, device := device } {}).2.2

/-- One iteration of the `_execute_indirect` loop including the
merge-with-existing and dict update. -/
def indirectStep (env : Env) (device : Fqdn) (m : List (Fqdn × Pair))
    (rule : IndirectRule) : Except MeshErr (List (Fqdn × Pair)) :=
  match buildIndirectPair env device rule with
  | .error e => .error e
  | .ok (k, p) => insertPair m k p

/-- `_execute_indirect`: fold the rules of `lookup_indirect` over the whole
inventory names and return the merged pairs in first-seen order. -/
def execute_indirect (env : Env) (reg : MeshRulesRegistry) (device : Fqdn)
    (all_fqdns : List Fqdn) : Except MeshErr (List Pair) :=
  match foldStepsE (indirectStep env device) []
      (reg.lookup_indirect device all_fqdns) with
  | .error e => .error e
  | .ok m => .ok (m.map Prod.snd)

/-- `_process_neighbor`: validate the lag/svi/subif fields of the local
fragment against the physical connections, then perform the provisioning
side effects, returned as the trace of calls in order. Every validation
error is raised before any provisioning call. The subif-only branch reads
`port_pairs[0]`, an `IndexError` when there is no connection. -/
def process_neighbor (env : Env) (device neighbor : Fqdn) (local_ : PeerDTO) :
    Except MeshErr (List Effect) :=
  if local_.lag.isSome ∧ local_.svi.isSome then .error .lagSviConflict
  else if local_.svi.isSome ∧ local_.subif.isSome then .error .sviSubifConflict
  else if 1 < (env.search_connections device neighbor).length ∧
      local_.lag = none ∧ local_.svi = none then
    .error .ambiguousMultiLink
  else
    match local_.lag with
    | some lag =>
      .ok (Effect.makeLag lag ((env.search_connections device neighbor).map Prod.fst)
          local_.lag_links_min ::
        match local_.subif with
        | some s =>
          [Effect.addSubif
            (env.makeLagRet lag ((env.search_connections device neighbor).map Prod.fst)
              local_.lag_links_min) s]
        | none => [])
    | none =>
      match local_.subif with
      | some s =>
        match env.search_connections device neighbor with
        | [] => .error .indexError
        | (localPort, _) :: _ => .ok [Effect.addSubif localPort s]
      | none =>
        match local_.svi with
        | some v => .ok [Effect.addSvi v]
        | none => .ok []

/-- The direct-peer loop of `execute_for`: convert each pair to a peer and
run `_process_neighbor` on the device with the pair's neighbor and local
fragment, accumulating the effect trace; an error keeps the effects already
performed and aborts. -/
def processDirectLoop (env : Env) (device : Fqdn) :
    List Pair → List Effect × Except MeshErr (List Peer)
  | [] => ([], .ok [])
  | p :: ps =>
    match process_neighbor env device p.device p.local_ with
    | .error e => ([], .error e)
    | .ok effs =>
      match processDirectLoop env device ps with
      | (effs2, .error e) => (effs ++ effs2, .error e)
      | (effs2, .ok peers) => (effs ++ effs2, .ok (to_bgp_peer p :: peers))

/-- `execute_for`: resolve the inventory, run the direct pairs (conversion
plus interface reconciliation side effects), then the indirect pairs
(conversion only), then globals; the first component is the trace of
provisioning effects performed before the result or error. -/
def execute_for (env : Env) (reg : MeshRulesRegistry) (device : Fqdn) :
    List Effect × Except MeshErr MeshExecutionResult :=
  match execute_direct env reg device with
  | .error e => ([], .error e)
  | .ok directPairs =>
    ((processDirectLoop env device directPairs).1,
      match (processDirectLoop env device directPairs).2 with
      | .error e => .error e
      | .ok directPeers =>
        match execute_indirect env reg device env.resolve_all_fdnds with
        | .error e => .error e
        | .ok indirectPairs =>
          .ok
            { global_options := to_bgp_global_options (execute_globals reg device),
              peers := directPeers ++ indirectPairs.map to_bgp_peer })

/-! ### Result classifiers -/

/-- Does an effect create an aggregated link? -/
def Effect.isMakeLag : Effect → Bool
  | .makeLag _ _ _ => true
  | _ => false

/-- A reconciliation result is a conflicting-interface-mode error. -/
def resultIsConflict : Except MeshErr (List Effect) → Bool
  | .error e => e.isConflictingInterfaceMode
  | .ok _ => false

/-- A reconciliation result succeeded and its trace contains a `make_lag`
call. -/
def resultHasMakeLag : Except MeshErr (List Effect) → Bool
  | .ok effs => effs.any Effect.isMakeLag
  | .error _ => false

/-! ### The accumulator invariant -/

/-- The invariant of the fqdn-keyed accumulator of
`_execute_direct`/`_execute_indirect`: keys are pairwise distinct and every
stored pair's connected device is its key. -/
def GoodAcc (m : List (Fqdn × Pair)) : Prop :=
  (m.map Prod.fst).Nodup ∧ ∀ e ∈ m, e.2.device = e.1

/-! ### Concrete fixture used by the witnesses: device `a` has neighbours
`b` (one connection) and `c` (two connections); `d` is in the inventory but
not adjacent; the registry carries one global rule, two direct rules both
matching `b`, and one indirect rule matching `d`. -/

/-- Witness topology/storage environment. -/
def envW : Env where
  neighbours := fun d => if d = "a" then ["b", "c"] else []
  search_connections := fun x y =>
    if x = "a" ∧ y = "b" then [("eth0", "xe0")]
    else if x = "a" ∧ y = "c" then [("eth1", "xe1"), ("eth2", "xe2")]
    else []
  make_devices := fun n => [n]
  resolve_all_fdnds := ["a", "b", "c", "d"]
  makeLagRet := fun l _ _ => "lag" ++ toString l

/-- Witness direct rule: sets `subif := 100` on the device side. -/
def ruleW1 : DirectRule where
  name_left := "a"
  name_right := "b"
  matched_left := "ml"
  matched_right := "mr"
  direct_order := true
  handler := fun l r s => ({ l with dto := { l.dto with subif := some 100 } }, r, s)

/-- Witness direct rule: sets `lag := 7` on the device side, matching the
same neighbor as `ruleW1`. -/
def ruleW2 : DirectRule where
  name_left := "a"
  name_right := "b"
  matched_left := "ml2"
  matched_right := "mr2"
  direct_order := true
  handler := fun l r s => ({ l with dto := { l.dto with lag := some 7 } }, r, s)

/-- Witness indirect rule: sets `svi := 3` on the connected side. -/
def ruleW3 : IndirectRule where
  name_left := "a"
  name_right := "d"
  matched_left := "il"
  matched_right := "ir"
  direct_order := true
  handler := fun l r s => (l, { r with dto := { r.dto with svi := some 3 } }, s)

/-- Witness global rule: sets `asn` and appends a group. -/
def ruleWG : GlobalRule where
  matched := "g1"
  handler := fun c => { c with dto := { asn := some 65000, groups := ["x"] } }

/-- Witness registry. -/
def regW : MeshRulesRegistry where
  lookup_global := fun _ => [ruleWG]
  lookup_direct := fun _ _ => [ruleW1, ruleW2]
  lookup_indirect := fun _ _ => [ruleW3]

/-- The merged direct pair the fixture produces for neighbor `b`. -/
def pairsW : List Pair :=
  [{ local_ := { lag := some 7, subif := some 100 }, connected := {}, device := "b" }]

/-- The indirect pair the fixture produces for target `d`. -/
def ipairsW : List Pair :=
  [{ local_ := {}, connected := { svi := some 3 }, device := "d" }]

/-- Witness direct rule with reversed orientation (`direct_order = false`). -/
def ruleW4 : DirectRule where
  name_left := "b"
  name_right := "a"
  matched_left := "x"
  matched_right := "y"
  direct_order := false
  handler := fun l r s => (l, r, s)

/-- The effect trace the fixture's `execute_for` performs for device `a`. -/
def effsW : List Effect :=
  [Effect.makeLag 7 ["eth0"] none, Effect.addSubif "lag7" 100]

/-- The execution result the fixture produces for device `a`. -/
def resW : MeshExecutionResult where
  global_options := to_bgp_global_options { asn := some 65000, groups := ["x"] }
  peers := pairsW.map to_bgp_peer ++ ipairsW.map to_bgp_peer

/-- A stored pair an earlier rule produced for neighbor `b`. -/
def oldW : Pair := { local_ := { subif := some 100 }, connected := {}, device := "b" }

/-- A pair a later rule produces for the same neighbor `b`. -/
def newW : Pair := { local_ := { lag := some 7 }, connected := {}, device := "b" }

/-- The accumulative merge of `oldW` and `newW`. -/
def mergedW : Pair :=
  { local_ := { lag := some 7, subif := some 100 }, connected := {}, device := "b" }

/-- An accumulator already holding a pair for neighbor `b`. -/
def accW : List (Fqdn × Pair) := [("b", oldW)]

/-- Local fragment with conflicting `lag` and `svi`. -/
def dtoC3 : PeerDTO := { lag := some 1, svi := some 2 }

/-- Empty local fragment. -/
def dtoC4 : PeerDTO := {}

/-- Local fragment with `lag`, `lag_links_min` and `subif` set. -/
def dtoC7 : PeerDTO := { lag := some 1, lag_links_min := some 2, subif := some 5 }

/-- Local fragment with only `subif` set. -/
def dtoC8 : PeerDTO := { subif := some 100 }

/-- Local fragment with only `subif` set, for the no-connection case. -/
def dtoC10 : PeerDTO := { subif := some 5 }


theorem lookupAssoc_eq_none {m : List (Fqdn × Pair)} {k : Fqdn}
    (h : lookupAssoc m k = none) : k ∉ m.map Prod.fst := by
  induction m with
  | nil => simp
  | cons e rest ih =>
    unfold lookupAssoc at h
    by_cases he : e.1 = k
    · rw [if_pos he] at h; exact absurd h (by simp)
    · rw [if_neg he] at h
      simp only [List.map_cons, List.mem_cons]
      rintro (hk | hk)
      · exact he hk.symm
      · exact ih h hk

theorem setAssoc_map_fst (m : List (Fqdn × Pair)) (k : Fqdn) (v : Pair) :
    (setAssoc m k v).map Prod.fst = m.map Prod.fst := by
  induction m with
  | nil => rfl
  | cons e rest ih =>
    simp only [setAssoc, List.map_cons] at ih ⊢
    by_cases he : e.1 = k
    · rw [if_pos he, ih]; simp [he]
    · rw [if_neg he, ih]

theorem mergePair_device {a b mv : Pair} (h : mergePair a b = .ok mv) :
    mv.device = b.device := by
  unfold mergePair at h
  split at h
  · exact absurd h (by simp)
  · split at h
    · exact absurd h (by simp)
    · cases h; rfl

theorem insertPair_good {m : List (Fqdn × Pair)} {k : Fqdn} {v : Pair}
    {m' : List (Fqdn × Pair)} (hg : GoodAcc m) (hv : v.device = k)
    (h : insertPair m k v = .ok m') : GoodAcc m' := by
  unfold insertPair at h
  split at h
  next old hl =>
    split at h
    next e hmp => exact absurd h (by simp)
    next mv hmp =>
      cases h
      constructor
      · rw [setAssoc_map_fst]; exact hg.1
      · intro e he
        simp only [setAssoc, List.mem_map] at he
        obtain ⟨e0, he0, heq⟩ := he
        by_cases h0 : e0.1 = k
        · rw [if_pos h0] at heq
          subst heq
          simp [mergePair_device hmp, hv]
        · rw [if_neg h0] at heq
          subst heq
          exact hg.2 e0 he0
  next hl =>
    cases h
    constructor
    · rw [List.map_append]
      rw [List.nodup_append]
      refine ⟨hg.1, List.nodup_singleton _, ?_⟩
      intro a ha hb
      simp only [List.map_cons, List.map_nil, List.mem_singleton] at hb
      exact lookupAssoc_eq_none hl (hb ▸ ha)
    · intro e he
      rcases List.mem_append.1 he with he | he
      · exact hg.2 e he
      · simp only [List.mem_singleton] at he
        subst he; exact hv

theorem foldStepsE_preserve {α : Type}
    {f : List (Fqdn × Pair) → α → Except MeshErr (List (Fqdn × Pair))}
    {P : List (Fqdn × Pair) → Prop}
    (hf : ∀ m a m', P m → f m a = .ok m' → P m') :
    ∀ (l : List α) (m m' : List (Fqdn × Pair)),
      P m → foldStepsE f m l = .ok m' → P m' := by
  intro l
  induction l with
  | nil =>
    intro m m' hp h
    unfold foldStepsE at h
    cases h; exact hp
  | cons a rest ih =>
    intro m m' hp h
    unfold foldStepsE at h
    cases hfa : f m a with
    | error e => rw [hfa] at h; exact absurd h (by simp)
    | ok m2 => rw [hfa] at h; exact ih m2 m' (hf m a m2 hp hfa) h

theorem directFinish_device {n : Fqdn} {rule : DirectRule}
    {out : DirectPeerCtx × DirectPeerCtx × Session} {k : Fqdn} {p : Pair}
    (h : directFinish n rule out = .ok (k, p)) : p.device = k := by
  unfold directFinish at h
  split at h
  · exact absurd h (by simp)
  · split at h
    · exact absurd h (by simp)
    · cases h; rfl

theorem buildDirectPair_device {env : Env} {d : Fqdn} {keys : List Fqdn}
    {rule : DirectRule} {k : Fqdn} {p : Pair}
    (h : buildDirectPair env d keys rule = .ok (k, p)) : p.device = k := by
  unfold buildDirectPair at h
  split at h
  · exact directFinish_device h
  · exact absurd h (by simp)

theorem indirectFinish_device {c : Fqdn} {a b : IndirectPeerCtx} {s : Session}
    {k : Fqdn} {p : Pair}
    (h : indirectFinish c a b s = .ok (k, p)) : p.device = k := by
  unfold indirectFinish at h
  split at h
  · exact absurd h (by simp)
  · split at h
    · exact absurd h (by simp)
    · cases h; rfl

theorem buildIndirectPair_device {env : Env} {d : Fqdn} {rule : IndirectRule}
    {k : Fqdn} {p : Pair}
    (h : buildIndirectPair env d rule = .ok (k, p)) : p.device = k := by
  unfold buildIndirectPair at h
  split at h
  · split at h
    · exact absurd h (by simp)
    · exact indirectFinish_device h
  · split at h
    · exact absurd h (by simp)
    · exact indirectFinish_device h

theorem directStep_good {env : Env} {d : Fqdn} {keys : List Fqdn} :
    ∀ (m : List (Fqdn × Pair)) (rule : DirectRule) (m' : List (Fqdn × Pair)),
      GoodAcc m → directStep env d keys m rule = .ok m' → GoodAcc m' := by
  intro m rule m' hg h
  unfold directStep at h
  cases hb : buildDirectPair env d keys rule with
  | error e => rw [hb] at h; exact absurd h (by simp)
  | ok kp =>
    obtain ⟨k, p⟩ := kp
    rw [hb] at h
    exact insertPair_good hg (buildDirectPair_device hb) h

theorem indirectStep_good {env : Env} {d : Fqdn} :
    ∀ (m : List (Fqdn × Pair)) (rule : IndirectRule) (m' : List (Fqdn × Pair)),
      GoodAcc m → indirectStep env d m rule = .ok m' → GoodAcc m' := by
  intro m rule m' hg h
  unfold indirectStep at h
  cases hb : buildIndirectPair env d rule with
  | error e => rw [hb] at h; exact absurd h (by simp)
  | ok kp =>
    obtain ⟨k, p⟩ := kp
    rw [hb] at h
    exact insertPair_good hg (buildIndirectPair_device hb) h

theorem goodAcc_values_nodup {m : List (Fqdn × Pair)} (hg : GoodAcc m) :
    ((m.map Prod.snd).map Pair.device).Nodup := by
  rw [List.map_map]
  have : m.map (Pair.device ∘ Prod.snd) = m.map Prod.fst :=
    List.map_congr_left (fun e he => hg.2 e he)
  rw [this]
  exact hg.1

theorem processDirectLoop_peers {env : Env} {d : Fqdn} :
    ∀ (l : List Pair) (effs : List Effect) (peers : List Peer),
      processDirectLoop env d l = (effs, .ok peers) →
      peers = l.map to_bgp_peer := by
  intro l
  induction l with
  | nil =>
    intro effs peers h
    unfold processDirectLoop at h
    simp only [Prod.mk.injEq] at h
    obtain ⟨-, h2⟩ := h
    cases h2; rfl
  | cons p ps ih =>
    intro effs peers h
    unfold processDirectLoop at h
    cases hpn : process_neighbor env d p.device p.local_ with
    | error e =>
      rw [hpn] at h
      simp only [Prod.mk.injEq] at h
      exact absurd h.2 (by simp)
    | ok effs1 =>
      rw [hpn] at h
      rcases hrec : processDirectLoop env d ps with ⟨effs2, r2⟩
      rw [hrec] at h
      cases r2 with
      | error e =>
        simp only [Prod.mk.injEq] at h
        exact absurd h.2 (by simp)
      | ok peers2 =>
        simp only [Prod.mk.injEq] at h
        obtain ⟨-, h2⟩ := h
        cases h2
        simp only [List.map_cons]
        rw [ih effs2 peers2 hrec]

theorem execute_globals_loop_eq_foldl (d : Fqdn) :
    ∀ (l : List GlobalRule) (acc : GlobalOptionsDTO),
      execute_globals_loop d acc l =
        l.foldl (fun acc r =>
          mergeGlobalDTO acc (r.handler { matched := r.matched, device := d }).dto) acc := by
  intro l
  induction l with
  | nil => intro acc; rfl
  | cons r rs ih => intro acc; rw [List.foldl_cons, ← ih]; rfl

/-! ### The claims -/

/-- C3: whenever the local fragment has both `lag` and `svi` set, or both
`svi` and `subif` set, `_process_neighbor` raises a
`ConflictingInterfaceMode` error (one of the two conflicting-mode
`ValueError`s), and the result is an error, so no provisioning call
(`make_lag`, `add_subif`, `add_svi`) is performed for that neighbor. -/
theorem conflicting_interface_mode_first :
    ∀ (env : Env) (d n : Fqdn) (local_ : PeerDTO),
      ((local_.lag.isSome ∧ local_.svi.isSome) ∨
        (local_.svi.isSome ∧ local_.subif.isSome)) →
      resultIsConflict (process_neighbor env d n local_) = true := by
  intro env d n l h
  unfold process_neighbor
  by_cases h1 : l.lag.isSome ∧ l.svi.isSome
  · rw [if_pos h1]; rfl
  · have h2 : l.svi.isSome ∧ l.subif.isSome := h.resolve_left h1
    rw [if_neg h1, if_pos h2]; rfl

/-- C3 witness: at `lag = 1, svi = 2` the conflict fires. -/
theorem conflicting_interface_mode_first_witness :
    ((dtoC3.lag.isSome ∧ dtoC3.svi.isSome) ∨
      (dtoC3.svi.isSome ∧ dtoC3.subif.isSome)) ∧
    resultIsConflict (process_neighbor envW "a" "b" dtoC3) = true :=
  ⟨Or.inl ⟨rfl, rfl⟩,
    conflicting_interface_mode_first envW "a" "b" dtoC3 (Or.inl ⟨rfl, rfl⟩)⟩

/-- C4: with more than one connecting interface pair and neither `lag` nor
`svi` set, `_process_neighbor` raises `AmbiguousMultiLink`; the error result
carries no provisioning effect. -/
theorem ambiguous_multilink_error :
    ∀ (env : Env) (d n : Fqdn) (local_ : PeerDTO),
      1 < (env.search_connections d n).length →
      local_.lag = none → local_.svi = none →
      process_neighbor env d n local_ = .error .ambiguousMultiLink := by
  intro env d n l hlen hlag hsvi
  unfold process_neighbor
  have h1 : ¬(l.lag.isSome ∧ l.svi.isSome) := by
    rintro ⟨hl, -⟩; rw [hlag] at hl; exact absurd hl (by simp)
  have h2 : ¬(l.svi.isSome ∧ l.subif.isSome) := by
    rintro ⟨hs, -⟩; rw [hsvi] at hs; exact absurd hs (by simp)
  rw [if_neg h1, if_neg h2, if_pos ⟨hlen, hlag, hsvi⟩]

/-- C4 witness: two connections between `a` and `c`, empty fragment. -/
theorem ambiguous_multilink_error_witness :
    1 < (envW.search_connections "a" "c").length ∧
    dtoC4.lag = none ∧ dtoC4.svi = none ∧
    process_neighbor envW "a" "c" dtoC4 = .error .ambiguousMultiLink :=
  ⟨by decide, rfl, rfl,
    ambiguous_multilink_error envW "a" "c" dtoC4 (by decide) rfl rfl⟩

/-- C7 counterexample: at `lag = 1, svi = 2` (both set), `_process_neighbor`
raises the conflicting-mode error and never calls `make_lag`, so the claim
as stated (`lag` set implies `make_lag` is called) is false. -/
theorem lag_provisioning_counterexample :
    process_neighbor envW "a" "c" { lag := some 1, svi := some 2 } =
      .error .lagSviConflict ∧
    resultHasMakeLag (process_neighbor envW "a" "c" { lag := some 1, svi := some 2 }) =
      false :=
  ⟨rfl, rfl⟩

/-- C7 (amended: additionally `svi` not set): when the local fragment has
`lag` set and `svi` absent, `make_lag` is called with the lag identifier,
the local interface names of all connecting pairs and the minimum-links
value, and exactly when `subif` is also set, `add_subif` follows on the
identifier `make_lag` returned; no `add_svi` occurs. -/
theorem lag_provisioning_amended :
    ∀ (env : Env) (d n : Fqdn) (local_ : PeerDTO) (L : Int),
      local_.lag = some L → local_.svi = none →
      process_neighbor env d n local_ =
        .ok (Effect.makeLag L ((env.search_connections d n).map Prod.fst)
            local_.lag_links_min ::
          match local_.subif with
          | some s =>
            [Effect.addSubif
              (env.makeLagRet L ((env.search_connections d n).map Prod.fst)
                local_.lag_links_min) s]
          | none => []) := by
  intro env d n l L hlag hsvi
  unfold process_neighbor
  have h1 : ¬(l.lag.isSome ∧ l.svi.isSome) := by
    rintro ⟨-, hs⟩; rw [hsvi] at hs; exact absurd hs (by simp)
  have h2 : ¬(l.svi.isSome ∧ l.subif.isSome) := by
    rintro ⟨hs, -⟩; rw [hsvi] at hs; exact absurd hs (by simp)
  have h3 : ¬(1 < (env.search_connections d n).length ∧
      l.lag = none ∧ l.svi = none) := by
    rintro ⟨-, hl, -⟩; rw [hlag] at hl; exact absurd hl (by simp)
  rw [if_neg h1, if_neg h2, if_neg h3, hlag]

/-- C7 witness: two connections, `lag = 1`, `lag_links_min = 2`,
`subif = 5`: `make_lag` over both local names with `min_links = 2`, then
`add_subif` on the returned identifier. -/
theorem lag_provisioning_amended_witness :
    dtoC7.lag = some 1 ∧ dtoC7.svi = none ∧
    process_neighbor envW "a" "c" dtoC7 =
      .ok [Effect.makeLag 1 ["eth1", "eth2"] (some 2), Effect.addSubif "lag1" 5] :=
  ⟨rfl, rfl, lag_provisioning_amended envW "a" "c" dtoC7 1 rfl rfl⟩

/-- C8: with exactly one connecting pair, `subif` set and neither `lag` nor
`svi` set, `add_subif` is called exactly once, on the single connecting
local interface name with the given subif id, and nothing else is
provisioned. -/
theorem single_subif_provisioning :
    ∀ (env : Env) (d n : Fqdn) (local_ : PeerDTO) (s : Int) (lp rp : String),
      env.search_connections d n = [(lp, rp)] →
      local_.subif = some s → local_.lag = none → local_.svi = none →
      process_neighbor env d n local_ = .ok [Effect.addSubif lp s] := by
  intro env d n l s lp rp hconn hsub hlag hsvi
  unfold process_neighbor
  have h1 : ¬(l.lag.isSome ∧ l.svi.isSome) := by
    rintro ⟨hl, -⟩; rw [hlag] at hl; exact absurd hl (by simp)
  have h2 : ¬(l.svi.isSome ∧ l.subif.isSome) := by
    rintro ⟨hs, -⟩; rw [hsvi] at hs; exact absurd hs (by simp)
  have h3 : ¬(1 < (env.search_connections d n).length ∧
      l.lag = none ∧ l.svi = none) := by
    rintro ⟨hlen, -, -⟩; rw [hconn] at hlen; exact absurd hlen (by simp)
  rw [if_neg h1, if_neg h2, if_neg h3, hlag, hsub, hconn]

/-- C8 witness: the single `a`–`b` connection with `subif = 100`. -/
theorem single_subif_provisioning_witness :
    envW.search_connections "a" "b" = [("eth0", "xe0")] ∧
    dtoC8.subif = some 100 ∧ dtoC8.lag = none ∧ dtoC8.svi = none ∧
    process_neighbor envW "a" "b" dtoC8 = .ok [Effect.addSubif "eth0" 100] :=
  ⟨rfl, rfl, rfl, rfl,
    single_subif_provisioning envW "a" "b" dtoC8 100 "eth0" "xe0" rfl rfl rfl rfl⟩

/-- C10: the subif-only branch of `_process_neighbor` reads the first
element of the connection list, so with zero connections it fails with an
`IndexError`, which is not one of the specified validation errors; the
branch is well-defined only when at least one pair connects the devices. -/
theorem subif_branch_requires_connection :
    ∀ (env : Env) (d n : Fqdn) (local_ : PeerDTO) (s : Int),
      local_.lag = none → local_.svi = none → local_.subif = some s →
      env.search_connections d n = [] →
      process_neighbor env d n local_ = .error .indexError ∧
      MeshErr.indexError.isSpecifiedValidationError = false := by
  intro env d n l s hlag hsvi hsub hconn
  refine ⟨?_, rfl⟩
  unfold process_neighbor
  have h1 : ¬(l.lag.isSome ∧ l.svi.isSome) := by
    rintro ⟨hl, -⟩; rw [hlag] at hl; exact absurd hl (by simp)
  have h2 : ¬(l.svi.isSome ∧ l.subif.isSome) := by
    rintro ⟨hs, -⟩; rw [hsvi] at hs; exact absurd hs (by simp)
  have h3 : ¬(1 < (env.search_connections d n).length ∧
      l.lag = none ∧ l.svi = none) := by
    rintro ⟨hlen, -, -⟩; rw [hconn] at hlen; exact absurd hlen (by simp)
  rw [if_neg h1, if_neg h2, if_neg h3, hlag, hsub, hconn]

/-- C10 witness: `a` and `d` share no connection and `subif = 5`. -/
theorem subif_branch_requires_connection_witness :
    dtoC10.lag = none ∧ dtoC10.svi = none ∧ dtoC10.subif = some 5 ∧
    envW.search_connections "a" "d" = [] ∧
    (process_neighbor envW "a" "d" dtoC10 = .error .indexError ∧
      MeshErr.indexError.isSpecifiedValidationError = false) :=
  ⟨rfl, rfl, rfl, rfl,
    subif_branch_requires_connection envW "a" "d" dtoC10 5 rfl rfl rfl rfl⟩

/-- C6: for a direct rule, the first handler argument (the left context)
binds `matched_left` and the second binds `matched_right`; when
`direct_order` is true the left context is bound to the current device and
the right to the neighbor, and when false the bindings are swapped; the
device-side context always carries the local interface names and the
neighbor-side context the remote ones; and the rule loop invokes the handler
on exactly these two contexts in this order. -/
theorem direct_orientation_binding :
    ∀ (env : Env) (d n : Fqdn) (rule : DirectRule),
      (directHandlerArgs env d n rule).1.matched = rule.matched_left ∧
      (directHandlerArgs env d n rule).2.matched = rule.matched_right ∧
      (rule.direct_order = true →
        (directHandlerArgs env d n rule).1.device = d ∧
        (directHandlerArgs env d n rule).2.device = n ∧
        (directHandlerArgs env d n rule).1.ports =
          (env.search_connections d n).map Prod.fst ∧
        (directHandlerArgs env d n rule).2.ports =
          (env.search_connections d n).map Prod.snd) ∧
      (rule.direct_order = false →
        (directHandlerArgs env d n rule).1.device = n ∧
        (directHandlerArgs env d n rule).2.device = d ∧
        (directHandlerArgs env d n rule).1.ports =
          (env.search_connections d n).map Prod.snd ∧
        (directHandlerArgs env d n rule).2.ports =
          (env.search_connections d n).map Prod.fst) ∧
      (∀ keys : List Fqdn, keys.contains (directNeighborName rule) = true →
        buildDirectPair env d keys rule =
          directFinish (directNeighborName rule) rule
            (rule.handler
              (directHandlerArgs env d (directNeighborName rule) rule).1
              (directHandlerArgs env d (directNeighborName rule) rule).2 {})) := by
  intro env d n rule
  refine ⟨?_, ?_, ?_, ?_, ?_⟩
  · cases hdo : rule.direct_order <;> simp [directHandlerArgs, hdo]
  · cases hdo : rule.direct_order <;> simp [directHandlerArgs, hdo]
  · intro hdo; simp [directHandlerArgs, hdo]
  · intro hdo; simp [directHandlerArgs, hdo]
  · intro keys hk
    unfold buildDirectPair
    rw [if_pos hk]

/-- C6 witness: instantiated at a `direct_order = true` rule, a
`direct_order = false` rule, and concrete dict keys. -/
theorem direct_orientation_binding_witness :
    (ruleW1.direct_order = true ∧
      (directHandlerArgs envW "a" "b" ruleW1).1.device = "a" ∧
      (directHandlerArgs envW "a" "b" ruleW1).2.device = "b" ∧
      (directHandlerArgs envW "a" "b" ruleW1).1.ports =
        (envW.search_connections "a" "b").map Prod.fst ∧
      (directHandlerArgs envW "a" "b" ruleW1).2.ports =
        (envW.search_connections "a" "b").map Prod.snd) ∧
    (ruleW4.direct_order = false ∧
      (directHandlerArgs envW "a" "b" ruleW4).1.device = "b" ∧
      (directHandlerArgs envW "a" "b" ruleW4).2.device = "a" ∧
      (directHandlerArgs envW "a" "b" ruleW4).1.ports =
        (envW.search_connections "a" "b").map Prod.snd ∧
      (directHandlerArgs envW "a" "b" ruleW4).2.ports =
        (envW.search_connections "a" "b").map Prod.fst) ∧
    (List.contains ["b"] (directNeighborName ruleW1) = true ∧
      buildDirectPair envW "a" ["b"] ruleW1 =
        directFinish (directNeighborName ruleW1) ruleW1
          (ruleW1.handler
            (directHandlerArgs envW "a" (directNeighborName ruleW1) ruleW1).1
            (directHandlerArgs envW "a" (directNeighborName ruleW1) ruleW1).2 {})) :=
  ⟨⟨rfl, (direct_orientation_binding envW "a" "b" ruleW1).2.2.1 rfl⟩,
    ⟨rfl, (direct_orientation_binding envW "a" "b" ruleW4).2.2.2.1 rfl⟩,
    ⟨rfl, (direct_orientation_binding envW "a" "b" ruleW1).2.2.2.2 ["b"] rfl⟩⟩

/-- C9: `_execute_globals` is the left fold of the per-field merge over the
rules of `lookup_global` in registry order, starting from the empty
fragment, each rule contributing the fragment its handler populated on a
context bound to `(rule.matched, device)`; and the provisioning effect trace
of `execute_for` does not depend on the global rules at all. -/
theorem globals_fold_merge :
    (∀ (reg : MeshRulesRegistry) (d : Fqdn),
      execute_globals reg d =
        (reg.lookup_global d).foldl
          (fun acc r =>
            mergeGlobalDTO acc (r.handler { matched := r.matched, device := d }).dto)
          {}) ∧
    (∀ (env : Env) (reg : MeshRulesRegistry) (g : Fqdn → List GlobalRule) (d : Fqdn),
      (execute_for env { reg with lookup_global := g } d).1 =
        (execute_for env reg d).1) := by
  constructor
  · intro reg d
    exact execute_globals_loop_eq_foldl d (reg.lookup_global d) {}
  · intro env reg g d
    unfold execute_for
    have hd : execute_direct env { reg with lookup_global := g } d =
        execute_direct env reg d := rfl
    rw [hd]
    cases execute_direct env reg d with
    | error e => rfl
    | ok dps => rfl

/-- C1: after `_execute_direct` and after `_execute_indirect` there is at
most one `Pair` per distinct neighbor/target fqdn (the connected-device
fqdns of the returned pairs are pairwise distinct); and when a rule matches
a neighbor whose key is already present, the accumulator update stores the
accumulative merge of the existing pair with the new one (device last-write
via `mergePair`) at the key's unchanged first-seen position, appending
nothing. -/
theorem pair_identity_unique_merge :
    (∀ (env : Env) (reg : MeshRulesRegistry) (d : Fqdn) (ps : List Pair),
      execute_direct env reg d = .ok ps → (ps.map Pair.device).Nodup) ∧
    (∀ (env : Env) (reg : MeshRulesRegistry) (d : Fqdn) (fqdns : List Fqdn)
        (ps : List Pair),
      execute_indirect env reg d fqdns = .ok ps → (ps.map Pair.device).Nodup) ∧
    (∀ (m : List (Fqdn × Pair)) (k : Fqdn) (v old mv : Pair),
      lookupAssoc m k = some old → mergePair old v = .ok mv →
      insertPair m k v = .ok (setAssoc m k mv) ∧
      (setAssoc m k mv).map Prod.fst = m.map Prod.fst) := by
  refine ⟨?_, ?_, ?_⟩
  · intro env reg d ps h
    unfold execute_direct at h
    split at h
    next e hf => exact absurd h (by simp)
    next m hf =>
      cases h
      exact goodAcc_values_nodup
        (foldStepsE_preserve directStep_good _ [] m ⟨List.nodup_nil, by simp⟩ hf)
  · intro env reg d fqdns ps h
    unfold execute_indirect at h
    split at h
    next e hf => exact absurd h (by simp)
    next m hf =>
      cases h
      exact goodAcc_values_nodup
        (foldStepsE_preserve indirectStep_good _ [] m ⟨List.nodup_nil, by simp⟩ hf)
  · intro m k v old mv hl hm
    refine ⟨?_, setAssoc_map_fst m k mv⟩
    simp only [insertPair, hl, hm]

/-- C1 witness: the fixture runs two direct rules for neighbor `b` into one
merged pair; inserting into an accumulator that already holds `b` merges in
place and keeps the key list. -/
theorem pair_identity_unique_merge_witness :
    (execute_direct envW regW "a" = .ok pairsW ∧
      (pairsW.map Pair.device).Nodup) ∧
    (execute_indirect envW regW "a" envW.resolve_all_fdnds = .ok ipairsW ∧
      (ipairsW.map Pair.device).Nodup) ∧
    (lookupAssoc accW "b" = some oldW ∧ mergePair oldW newW = .ok mergedW ∧
      insertPair accW "b" newW = .ok (setAssoc accW "b" mergedW) ∧
      (setAssoc accW "b" mergedW).map Prod.fst = accW.map Prod.fst) :=
  ⟨⟨rfl, pair_identity_unique_merge.1 envW regW "a" pairsW rfl⟩,
    ⟨rfl, pair_identity_unique_merge.2.1 envW regW "a" envW.resolve_all_fdnds ipairsW rfl⟩,
    rfl, rfl,
    (pair_identity_unique_merge.2.2 accW "b" newW oldW mergedW rfl rfl).1,
    (pair_identity_unique_merge.2.2 accW "b" newW oldW mergedW rfl rfl).2⟩

/-- C2: the provisioning effect trace of `execute_for` does not depend on
the indirect rules at all, and whenever `_execute_direct` succeeds the whole
trace is exactly the one produced by running `_process_neighbor` over the
direct pairs — indirect peers trigger no `make_lag`/`add_subif`/`add_svi`
regardless of their fragments. -/
theorem indirect_no_interface_effects :
    (∀ (env : Env) (reg : MeshRulesRegistry)
        (f : Fqdn → List Fqdn → List IndirectRule) (d : Fqdn),
      (execute_for env { reg with lookup_indirect := f } d).1 =
        (execute_for env reg d).1) ∧
    (∀ (env : Env) (reg : MeshRulesRegistry) (d : Fqdn) (dps : List Pair),
      execute_direct env reg d = .ok dps →
      (execute_for env reg d).1 = (processDirectLoop env d dps).1) := by
  constructor
  · intro env reg f d
    unfold execute_for
    have hd : execute_direct env { reg with lookup_indirect := f } d =
        execute_direct env reg d := rfl
    rw [hd]
    cases execute_direct env reg d with
    | error e => rfl
    | ok dps => rfl
  · intro env reg d dps hd
    unfold execute_for
    rw [hd]

/-- C2 witness: the fixture's trace comes from the direct pair for `b`
alone. -/
theorem indirect_no_interface_effects_witness :
    execute_direct envW regW "a" = .ok pairsW ∧
    (execute_for envW regW "a").1 = (processDirectLoop envW "a" pairsW).1 :=
  ⟨rfl, indirect_no_interface_effects.2 envW regW "a" pairsW rfl⟩

/-- C5: when `execute_for` succeeds, its peers list is the converted direct
pairs (in `_execute_direct`'s first-seen order) followed by the converted
indirect pairs (in `_execute_indirect`'s first-seen order), and the global
options are the independently computed conversion of `_execute_globals`. -/
theorem peers_direct_then_indirect :
    ∀ (env : Env) (reg : MeshRulesRegistry) (d : Fqdn) (effs : List Effect)
      (res : MeshExecutionResult) (dps ips : List Pair),
      execute_for env reg d = (effs, .ok res) →
      execute_direct env reg d = .ok dps →
      execute_indirect env reg d env.resolve_all_fdnds = .ok ips →
      res.peers = dps.map to_bgp_peer ++ ips.map to_bgp_peer ∧
      res.global_options = to_bgp_global_options (execute_globals reg d) := by
  intro env reg d effs res dps ips hEF hED hEI
  simp only [execute_for, hED, hEI] at hEF
  rcases hpl : processDirectLoop env d dps with ⟨effs1, r1⟩
  rw [hpl] at hEF
  cases r1 with
  | error e => simp at hEF
  | ok peers1 =>
    simp only [Prod.mk.injEq, Except.ok.injEq] at hEF
    obtain ⟨-, hres⟩ := hEF
    subst hres
    refine ⟨?_, rfl⟩
    have : peers1 = dps.map to_bgp_peer := by
      apply processDirectLoop_peers dps effs1 peers1
      rw [hpl]
    rw [this]

/-- C5 witness: the fixture's result lists the direct peer for `b` before
the indirect peer for `d`, with the global options from the global rule. -/
theorem peers_direct_then_indirect_witness :
    execute_for envW regW "a" = (effsW, .ok resW) ∧
    execute_direct envW regW "a" = .ok pairsW ∧
    execute_indirect envW regW "a" envW.resolve_all_fdnds = .ok ipairsW ∧
    (resW.peers = pairsW.map to_bgp_peer ++ ipairsW.map to_bgp_peer ∧
      resW.global_options = to_bgp_global_options (execute_globals regW "a")) :=
  ⟨rfl, rfl, rfl,
    peers_direct_then_indirect envW regW "a" effsW resW pairsW ipairsW rfl rfl rfl⟩

end Mesh
